import Mathlib

/-!
Shallow embedding of the two algorithmic units of `greenhouse_explore.py`:
the axis-range heuristic `ytrim_from` and the wide-to-long reshape `to_long`
(with the global quarter-column selection `time_cols`).

Floating-point values are modelled as rationals.  The only floating-point
phenomenon the script can hit is NaN (from `min`/`max` of an empty series and
its propagation through arithmetic and Python's `max`); we model a
possibly-NaN float as `Option ℚ` with `none` standing for NaN, and give the
arithmetic and comparison operations the exact Python/NumPy NaN semantics.
-/

namespace Greenhouse

/-- Possibly-NaN floating point value: `none` is NaN, `some q` a real number. -/
abbrev NFloat := Option ℚ

/-- Python `max(a, b)`: returns `b` when `a < b`, else `a`.  Comparisons with
NaN are false, so `max(NaN, x) = NaN` and `max(x, NaN) = x`. -/
def pymax (a b : NFloat) : NFloat :=
  match a, b with
  | some x, some y => if x < y then some y else some x
  | some x, none => some x
  | none, _ => none

/-- Subtraction with NaN propagation. -/
def nsub (a b : NFloat) : NFloat :=
  match a, b with
  | some x, some y => some (x - y)
  | _, _ => none

/-- Addition with NaN propagation. -/
def nadd (a b : NFloat) : NFloat :=
  match a, b with
  | some x, some y => some (x + y)
  | _, _ => none

/-- Multiplication with NaN propagation. -/
def nmul (a b : NFloat) : NFloat :=
  match a, b with
  | some x, some y => some (x * y)
  | _, _ => none

/-- The epsilon constant `1e-9` of `ytrim_from`. -/
def qeps : ℚ := 1 / 1000000000

/-- Models `pd.DataFrame(data_like).stack().astype(float)`: flatten the 2-D
collection row-major, dropping missing (NaN) cells, as `stack` does. -/
def stackVals (data : List (List (Option ℚ))) : List ℚ :=
  data.flatten.filterMap id

/-- Minimum of a list of values; `none` (NaN) on the empty list, as
`pandas.Series.min` yields NaN for an empty series. -/
def listMin : List ℚ → NFloat
  | [] => none
  | x :: xs => some (xs.foldl min x)

/-- Maximum of a list of values; `none` (NaN) on the empty list. -/
def listMax : List ℚ → NFloat
  | [] => none
  | x :: xs => some (xs.foldl max x)

/-- `dmin = float(vals.min())` of `ytrim_from`. -/
def dminOf (data : List (List (Option ℚ))) : NFloat :=
  listMin (stackVals data)

/-- `dmax = float(vals.max())` of `ytrim_from`. -/
def dmaxOf (data : List (List (Option ℚ))) : NFloat :=
  listMax (stackVals data)

/-- `span = max(dmax - dmin, 1e-9)` of `ytrim_from` (Python `max`, so a NaN
difference propagates). -/
def spanOf (data : List (List (Option ℚ))) : NFloat :=
  pymax (nsub (dmaxOf data) (dminOf data)) (some qeps)

/-- The mode-dependent lower bound of `ytrim_from` before the `floor0` clamp:
`dmax - span * (1 - strength)` when exaggerating, else `dmin - span * pad`. -/
def ytrim_ymin_raw (data : List (List (Option ℚ))) (pad : ℚ) (exaggerate : Bool)
    (strength : ℚ) : NFloat :=
  if exaggerate then
    nsub (dmaxOf data) (nmul (spanOf data) (some (1 - strength)))
  else
    nsub (dminOf data) (nmul (spanOf data) (some pad))

/-- The upper bound `ymax = dmax + span * pad` of `ytrim_from`. -/
def ytrim_ymax (data : List (List (Option ℚ))) (pad : ℚ) : NFloat :=
  nadd (dmaxOf data) (nmul (spanOf data) (some pad))

/-- Models `ytrim_from(data_like, ax, pad, exaggerate, floor0, strength)`:
the pair `(ymin, ymax)` that the function passes to `set_ylim`.  The
`floor0` clamp is Python's `max(0.0, ymin)` (so a NaN `ymin` becomes `0.0`).
Source defaults: `pad = 0.05`, `exaggerate = false`, `floor0 = true`,
`strength = 0.3`. -/
def ytrim_from (data : List (List (Option ℚ))) (pad : ℚ) (exaggerate : Bool)
    (floor0 : Bool) (strength : ℚ) : NFloat × NFloat :=
  (if floor0 then pymax (some 0) (ytrim_ymin_raw data pad exaggerate strength)
   else ytrim_ymin_raw data pad exaggerate strength,
   ytrim_ymax data pad)

/-- Raw cell of the wide table: a number, an arbitrary string, or missing. -/
inductive Cell where
  | num : ℚ → Cell
  | str : String → Cell
  | null : Cell
deriving DecidableEq

/-- Value of a run of decimal digit characters. -/
def digitsToNat (cs : List Char) : ℕ :=
  cs.foldl (fun acc c => 10 * acc + (c.toNat - 48)) 0

/-- Split a character list into its leading run of decimal digits and the rest. -/
def splitDigits : List Char → List Char × List Char
  | [] => ([], [])
  | c :: cs =>
    if c.isDigit then
      let (ds, r) := splitDigits cs
      (c :: ds, r)
    else ([], c :: cs)

/-- Parse an unsigned decimal literal (`123`, `123.45`, `.45`); `none` on
anything else. -/
def parseUnsigned (cs : List Char) : Option ℚ :=
  let (ip, r1) := splitDigits cs
  match r1 with
  | [] => if ip.isEmpty then none else some (digitsToNat ip)
  | '.' :: r2 =>
    let (fp, r3) := splitDigits r2
    if r3.isEmpty && !(ip.isEmpty && fp.isEmpty) then
      some ((digitsToNat ip : ℚ) + (digitsToNat fp : ℚ) / 10 ^ fp.length)
    else none
  | _ => none

/-- Parse an optionally signed decimal literal; `none` on anything else. -/
def parseNumber (s : String) : Option ℚ :=
  match s.toList with
  | '-' :: rest => (parseUnsigned rest).map (fun q => -q)
  | '+' :: rest => parseUnsigned rest
  | cs => parseUnsigned cs

/-- Models `pd.to_numeric(value, errors="coerce")` on one cell: numbers pass
through, decimal strings parse, anything else (e.g. `"N/A"`, or an already
missing cell) becomes the missing marker `none` — never an exception. -/
def to_numeric : Cell → Option ℚ
  | Cell.num q => some q
  | Cell.str s => parseNumber s
  | Cell.null => none

/-- A pandas `Timestamp` at the granularity the script uses: calendar date
plus the nanosecond within the day. -/
structure Timestamp where
  year : ℕ
  month : ℕ
  day : ℕ
  nanoOfDay : ℕ
deriving DecidableEq

/-- Models the quarter-label parsing done by
`pd.PeriodIndex(_, freq="Q")` for the label shape of this dataset's columns:
a four-digit year, the letter `Q`, and a quarter digit 1–4. -/
def parseQuarterLabel (s : String) : Option (ℕ × ℕ) :=
  match s.toList with
  | [a, b, c, d, 'Q', e] =>
    if a.isDigit && b.isDigit && c.isDigit && d.isDigit && e.isDigit then
      let q := e.toNat - 48
      if 1 ≤ q ∧ q ≤ 4 then some (digitsToNat [a, b, c, d], q) else none
    else none
  | _ => none

/-- Last day of the final month of quarter `q` (calendar quarters Q1–Q4 end
Mar 31, Jun 30, Sep 30, Dec 31). -/
def quarterEndDay : ℕ → ℕ
  | 2 => 30
  | 3 => 30
  | _ => 31

/-- Models `Period.to_timestamp(how="end")`: the last nanosecond of the last
day of the quarter's final month. -/
def quarterEndTs (y q : ℕ) : Timestamp :=
  ⟨y, 3 * q, quarterEndDay q, 86400 * 1000000000 - 1⟩

/-- Quarter label string to quarter-end timestamp (the composition applied to
the `Quarter` column by `to_long`); `none` models the parse error raised by
`pd.PeriodIndex` on an unrecognized label. -/
def tsOfLabel (s : String) : Option Timestamp :=
  (parseQuarterLabel s).map (fun p => quarterEndTs p.1 p.2)

/-- Boolean string-prefix test on the underlying character lists. -/
def listBegins : List Char → List Char → Bool
  | [], _ => true
  | _, [] => false
  | c :: cs, d :: ds => c == d && listBegins cs ds

/-- `s.startswith(p)` of Python. -/
def strBegins (s p : String) : Bool :=
  listBegins p.toList s.toList

/-- Models the global
`time_cols = [c for c in df.columns if c.startswith(tuple(str(y) for y in range(2010, 2025)))]`:
the columns whose name starts with one of the year strings "2010".."2024". -/
def time_cols (cols : List String) : List String :=
  cols.filter (fun c => (List.range' 2010 15).any (fun y => strBegins c (toString y)))

/-- One row of the wide table: the values of the identifier columns
(`id_vars`, in order) and the cells of the remaining columns keyed by column
name. -/
structure WideRow where
  ids : List Cell
  cells : List (String × Cell)
deriving DecidableEq

/-- Cell of a wide row at a named column. -/
def cellAt (r : WideRow) (c : String) : Cell :=
  (List.lookup c r.cells).getD Cell.null

/-- One row of the long table: identifier values, quarter-end timestamp, and
the coerced numeric emissions value (`none` = missing). -/
structure LongRow where
  ids : List Cell
  quarter : Timestamp
  emissions : Option ℚ
deriving DecidableEq

/-- Models `df.melt(id_vars, value_vars, var_name="Quarter", value_name="Emissions")`:
one output row per (value column, input row) pair, stacked column-block by
column-block as pandas does, carrying the identifier values, the column
label and the raw cell. -/
def melt (tcols : List String) (rows : List WideRow) :
    List (List Cell × String × Cell) :=
  tcols.flatMap (fun c => rows.map (fun r => (r.ids, c, cellAt r c)))

/-- Option-valued traversal: `some` of the list of results when `f` succeeds
everywhere, `none` as soon as it fails (the all-or-nothing behavior of the
`pd.PeriodIndex` conversion over a column). -/
def optMapAll (f : α → Option β) : List α → Option (List β)
  | [] => some []
  | a :: as =>
    match f a with
    | none => none
    | some b => (optMapAll f as).map (fun bs => b :: bs)

/-- The melt + quarter-parse + numeric-coercion stages of `to_long`, before
the year filter.  `none` models the exception raised when some quarter label
does not parse. -/
def parsedRows (tcols : List String) (rows : List WideRow) :
    Option (List LongRow) :=
  optMapAll
    (fun m => (tsOfLabel m.2.1).map (fun t => ⟨m.1, t, to_numeric m.2.2⟩))
    (melt tcols rows)

/-- Models `to_long(_df, id_vars)`: melt the quarter columns, parse the
quarter labels to quarter-end timestamps, coerce the values numerically, and
keep only rows whose quarter year lies in 2010–2024. -/
def to_long (tcols : List String) (rows : List WideRow) :
    Option (List LongRow) :=
  (parsedRows tcols rows).map
    (List.filter (fun lr => decide (2010 ≤ lr.quarter.year) && decide (lr.quarter.year ≤ 2024)))

lemma pymax_some (a b : ℚ) : pymax (some a) (some b) = some (max a b) := by
  by_cases h : a < b
  · simp [pymax, h, max_eq_right h.le]
  · simp [pymax, h, max_eq_left (not_lt.mp h)]

lemma foldl_min_le_init (xs : List ℚ) (x : ℚ) : xs.foldl min x ≤ x := by
  induction xs generalizing x with
  | nil => exact le_refl x
  | cons y ys ih => exact le_trans (ih (min x y)) (min_le_left x y)

lemma init_le_foldl_max (xs : List ℚ) (x : ℚ) : x ≤ xs.foldl max x := by
  induction xs generalizing x with
  | nil => exact le_refl x
  | cons y ys ih => exact le_trans (le_max_left x y) (ih (max x y))

lemma foldl_min_all_eq (xs : List ℚ) (c : ℚ) (h : ∀ y ∈ xs, y = c) :
    xs.foldl min c = c := by
  induction xs with
  | nil => rfl
  | cons y ys ih =>
    have hy : y = c := h y (List.mem_cons_self _ _)
    have hys : ∀ z ∈ ys, z = c := fun z hz => h z (List.mem_cons_of_mem _ hz)
    simp [List.foldl_cons, hy, min_self, ih hys]

lemma foldl_max_all_eq (xs : List ℚ) (c : ℚ) (h : ∀ y ∈ xs, y = c) :
    xs.foldl max c = c := by
  induction xs with
  | nil => rfl
  | cons y ys ih =>
    have hy : y = c := h y (List.mem_cons_self _ _)
    have hys : ∀ z ∈ ys, z = c := fun z hz => h z (List.mem_cons_of_mem _ hz)
    simp [List.foldl_cons, hy, max_self, ih hys]

lemma spanOf_eq (data : List (List (Option ℚ))) (dmin dmax : ℚ)
    (hmin : dminOf data = some dmin) (hmax : dmaxOf data = some dmax) :
    spanOf data = some (max (dmax - dmin) qeps) := by
  rw [spanOf, hmin, hmax]
  simp [nsub, pymax_some]

/-- Claim C1 (counterexample): on values spanning [100, 200] with
`exaggerate = true`, `strength = 0.1`, `pad = 0.05`, the computed lower bound
is exactly 110, not approximately 190 (even with a tolerance of ±20 around
190): the code computes `ymin = dmax - span * (1 - strength) = 200 - 90`. -/
theorem c1_counterexample :
    ytrim_from [[some 100, some 200]] (1/20) true true (1/10)
      = (some 110, some 205)
    ∧ ¬ ((190:ℚ) - 20 ≤ 110 ∧ (110:ℚ) ≤ 190 + 20) := by
  constructor
  · norm_num [ytrim_from, ytrim_ymin_raw, ytrim_ymax, spanOf, dminOf, dmaxOf,
      stackVals, listMin, listMax, pymax, nsub, nadd, nmul, qeps,
      List.filterMap, List.foldl, min_def, max_def]
  · norm_num

/-- Claim C1 (amended): with `exaggerate = true`, `strength = 0.1`,
`pad = 0.05` on values spanning [100, 200], `ytrim_from` computes
`ymin = 110` (`dmax - span * (1 - strength) = 200 - 100 * 0.9`) and
`ymax = 205` (`dmax + span * 0.05`). -/
theorem c1_amended_range :
    ytrim_from [[some 100, some 200]] (1/20) true true (1/10)
      = (some 110, some 205) := by
  norm_num [ytrim_from, ytrim_ymin_raw, ytrim_ymax, spanOf, dminOf, dmaxOf,
    stackVals, listMin, listMax, pymax, nsub, nadd, nmul, qeps,
    List.filterMap, List.foldl, min_def, max_def]

/-- Claim C2: for every non-empty collection with minimum `dmin`, maximum
`dmax` and `span = max(dmax - dmin, 1e-9)`, the mode-dependent lower bound is
`dmax - span * (1 - strength)` when `exaggerate` is true and
`dmin - span * pad` when it is false, and in both modes the upper bound is
`dmax + span * pad`; `ytrim_from` returns exactly these bounds (the lower one
before the separate `floor0` clamp, so with `floor0 = false`). -/
theorem c2_range_formulas (data : List (List (Option ℚ))) (pad strength : ℚ)
    (exaggerate : Bool) (dmin dmax : ℚ)
    (hmin : dminOf data = some dmin) (hmax : dmaxOf data = some dmax) :
    ytrim_ymin_raw data pad exaggerate strength
      = some (if exaggerate then dmax - max (dmax - dmin) qeps * (1 - strength)
              else dmin - max (dmax - dmin) qeps * pad)
    ∧ ytrim_ymax data pad = some (dmax + max (dmax - dmin) qeps * pad)
    ∧ ytrim_from data pad exaggerate false strength
      = (ytrim_ymin_raw data pad exaggerate strength, ytrim_ymax data pad) := by
  have hspan := spanOf_eq data dmin dmax hmin hmax
  refine ⟨?_, ?_, rfl⟩
  · cases exaggerate with
    | false => simp [ytrim_ymin_raw, hspan, hmin, nsub, nmul]
    | true => simp [ytrim_ymin_raw, hspan, hmax, nsub, nmul]
  · simp [ytrim_ymax, hspan, hmax, nadd, nmul]

/-- Claim C2 (witness): the formulas evaluated on values spanning
[100, 200] with `exaggerate = true`, `strength = 0.1`, `pad = 0.05`. -/
theorem c2_range_formulas_witness :
    ytrim_ymin_raw [[some 100, some 200]] (1/20) true (1/10)
      = some (if true then 200 - max ((200:ℚ) - 100) qeps * (1 - 1/10)
              else 100 - max ((200:ℚ) - 100) qeps * (1/20))
    ∧ ytrim_ymax [[some 100, some 200]] (1/20)
      = some (200 + max ((200:ℚ) - 100) qeps * (1/20))
    ∧ ytrim_from [[some 100, some 200]] (1/20) true false (1/10)
      = (ytrim_ymin_raw [[some 100, some 200]] (1/20) true (1/10),
         ytrim_ymax [[some 100, some 200]] (1/20)) :=
  c2_range_formulas [[some 100, some 200]] (1/20) (1/10) true 100 200
    (by norm_num [dminOf, stackVals, listMin, List.filterMap, List.foldl, min_def])
    (by norm_num [dmaxOf, stackVals, listMax, List.filterMap, List.foldl, max_def])

/-- Claim C3 (counterexample): on an empty value collection `ytrim_from`
does not fail fast; `min`/`max` of the empty series are NaN (`none`), the
NaN propagates into the upper bound, Python's `max(0.0, NaN)` turns the
lower bound into 0, and the degenerate NaN-containing range `(0, NaN)` is
handed to the chart's `set_ylim`. -/
theorem c3_counterexample :
    ytrim_from [] (1/20) false true (3/10) = (some 0, none) := by decide

/-- Claim C3 (amended): on an empty collection the heuristic raises no error
of its own: without the `floor0` clamp both bounds are NaN, and with it the
lower bound becomes 0 while the upper bound stays NaN, in every mode. -/
theorem c3_amended :
    ytrim_from [] (1/20) false false (3/10) = (none, none)
    ∧ ytrim_from [] (1/20) true true (3/10) = (some 0, none) := by
  exact ⟨by decide, by decide⟩

/-- Claim C4: with `floor0 = true` the final lower bound is
`max(0, ymin)` applied to the mode-dependent `ymin`; on values spanning
[-50, 50] with `exaggerate = false` and default `pad = 0.05` the pre-clamp
lower bound is -55 (negative) and the final lower bound is exactly 0. -/
theorem c4_floor0_clamp :
    (∀ (data : List (List (Option ℚ))) (pad strength : ℚ) (exaggerate : Bool)
        (q : ℚ), ytrim_ymin_raw data pad exaggerate strength = some q →
        (ytrim_from data pad exaggerate true strength).1 = some (max 0 q))
    ∧ ytrim_ymin_raw [[some (-50), some 50]] (1/20) false (3/10) = some (-55)
    ∧ (ytrim_from [[some (-50), some 50]] (1/20) false true (3/10)).1
      = some 0 := by
  refine ⟨?_, ?_, ?_⟩
  · intro data pad strength exaggerate q hq
    simp [ytrim_from, hq, pymax_some]
  · norm_num [ytrim_ymin_raw, spanOf, dminOf, dmaxOf, stackVals, listMin,
      listMax, pymax, nsub, nmul, qeps, List.filterMap, List.foldl,
      min_def, max_def]
  · norm_num [ytrim_from, ytrim_ymin_raw, ytrim_ymax, spanOf, dminOf, dmaxOf,
      stackVals, listMin, listMax, pymax, nsub, nadd, nmul, qeps,
      List.filterMap, List.foldl, min_def, max_def]

/-- Claim C4 (witness): the clamp equation instantiated on values spanning
[-50, 50], using the pre-clamp value -55 established by the same theorem. -/
theorem c4_floor0_clamp_witness :
    (ytrim_from [[some (-50), some 50]] (1/20) false true (3/10)).1
      = some (max 0 (-55)) :=
  c4_floor0_clamp.1 [[some (-50), some 50]] (1/20) (3/10) false (-55)
    c4_floor0_clamp.2.1

/-- Claim C5: on a non-empty collection all of whose values are 5.0, with
default `pad = 0.05`, `exaggerate = false`, `floor0 = true`, the span
collapses to the epsilon `1e-9` and the computed range is
`[5 - 1e-9 * 0.05, 5 + 1e-9 * 0.05]`, whose lower bound is non-negative. -/
theorem c5_constant_values (data : List (List (Option ℚ)))
    (hne : stackVals data ≠ []) (hall : ∀ x ∈ stackVals data, x = 5) :
    spanOf data = some qeps
    ∧ ytrim_from data (1/20) false true (3/10)
      = (some (5 - qeps * (1/20)), some (5 + qeps * (1/20)))
    ∧ (0:ℚ) ≤ 5 - qeps * (1/20) := by
  obtain ⟨x, xs, hx⟩ : ∃ x xs, stackVals data = x :: xs := by
    cases h : stackVals data with
    | nil => exact absurd h hne
    | cons x xs => exact ⟨x, xs, rfl⟩
  have hx5 : x = 5 := hall x (by rw [hx]; exact List.mem_cons_self _ _)
  have hxs5 : ∀ z ∈ xs, z = 5 := fun z hz =>
    hall z (by rw [hx]; exact List.mem_cons_of_mem _ hz)
  have hmin : dminOf data = some 5 := by
    rw [dminOf, hx, listMin, hx5, foldl_min_all_eq xs 5 hxs5]
  have hmax : dmaxOf data = some 5 := by
    rw [dmaxOf, hx, listMax, hx5, foldl_max_all_eq xs 5 hxs5]
  have hspan : spanOf data = some qeps := by
    rw [spanOf_eq data 5 5 hmin hmax]
    norm_num [qeps]
  refine ⟨hspan, ?_, by norm_num [qeps]⟩
  have hraw : ytrim_ymin_raw data (1/20) false (3/10)
      = some (5 - qeps * (1/20)) := by
    simp [ytrim_ymin_raw, hspan, hmin, nsub, nmul]
  have hclamp : pymax (some 0) (some (5 - qeps * (1/20)))
      = some (5 - qeps * (1/20)) := by
    rw [pymax_some]
    norm_num [qeps]
  have hymax : ytrim_ymax data (1/20) = some (5 + qeps * (1/20)) := by
    simp only [ytrim_ymax]
    rw [hmax, hspan]
    simp [nadd, nmul]
  have hsplit : ytrim_from data (1/20) false true (3/10)
      = (pymax (some 0) (ytrim_ymin_raw data (1/20) false (3/10)),
         ytrim_ymax data (1/20)) := rfl
  rw [hsplit, hraw, hclamp, hymax]

/-- Claim C5 (witness): the all-fives range on the concrete collection
`[[5, 5], [5]]`. -/
theorem c5_constant_values_witness :
    spanOf [[some 5, some 5], [some 5]] = some qeps
    ∧ ytrim_from [[some 5, some 5], [some 5]] (1/20) false true (3/10)
      = (some (5 - qeps * (1/20)), some (5 + qeps * (1/20)))
    ∧ (0:ℚ) ≤ 5 - qeps * (1/20) :=
  c5_constant_values [[some 5, some 5], [some 5]] (by decide) (by decide)

/-- Claim C10: whenever every value is negative, the padding fraction is
non-negative, and the padded maximum `ymax = dmax + span * pad` is still
negative, `ytrim_from` with `floor0 = true` (and `exaggerate = false`)
produces an inverted range: the lower bound is clamped to 0 while the upper
bound stays below 0. -/
theorem c10_inverted_range (data : List (List (Option ℚ)))
    (pad strength ymax : ℚ) (hpad : 0 ≤ pad)
    (_hneg : ∀ x ∈ stackVals data, x < 0)
    (hymax : ytrim_ymax data pad = some ymax) (hbelow : ymax < 0) :
    (ytrim_from data pad false true strength).1 = some 0
    ∧ (ytrim_from data pad false true strength).2 = some ymax
    ∧ ymax < 0 := by
  obtain ⟨x, xs, hx⟩ : ∃ x xs, stackVals data = x :: xs := by
    cases h : stackVals data with
    | nil =>
      simp only [ytrim_ymax, spanOf, dmaxOf, dminOf, h, listMin, listMax]
        at hymax
      simp [nsub, nadd, nmul, pymax] at hymax
    | cons x xs => exact ⟨x, xs, rfl⟩
  have hmin : dminOf data = some (xs.foldl min x) := by
    simp only [dminOf, hx, listMin]
  have hmax : dmaxOf data = some (xs.foldl max x) := by
    simp only [dmaxOf, hx, listMax]
  set dmin := xs.foldl min x with hdmin
  set dmax := xs.foldl max x with hdmax
  have hspan := spanOf_eq data dmin dmax hmin hmax
  have hymax2 : ymax = dmax + max (dmax - dmin) qeps * pad := by
    simp only [ytrim_ymax] at hymax
    rw [hmax, hspan] at hymax
    simp [nadd, nmul] at hymax
    exact hymax.symm
  have hsp_nonneg : 0 ≤ max (dmax - dmin) qeps * pad := by
    have h1 : (0:ℚ) ≤ max (dmax - dmin) qeps :=
      le_trans (by norm_num [qeps]) (le_max_right _ _)
    exact mul_nonneg h1 hpad
  have hdmax_neg : dmax < 0 := by
    have : dmax ≤ ymax := by rw [hymax2]; linarith
    linarith
  have hdle : dmin ≤ dmax :=
    le_trans (foldl_min_le_init xs x) (init_le_foldl_max xs x)
  have hraw : ytrim_ymin_raw data pad false strength
      = some (dmin - max (dmax - dmin) qeps * pad) := by
    simp [ytrim_ymin_raw, hspan, hmin, nsub, nmul]
  have hraw_neg : dmin - max (dmax - dmin) qeps * pad ≤ 0 := by linarith
  refine ⟨?_, ?_, hbelow⟩
  · have hsplit : (ytrim_from data pad false true strength).1
        = pymax (some 0) (ytrim_ymin_raw data pad false strength) := rfl
    rw [hsplit, hraw, pymax_some, max_eq_left hraw_neg]
  · have hsplit : (ytrim_from data pad false true strength).2
        = ytrim_ymax data pad := rfl
    rw [hsplit, hymax]

/-- Claim C10 (witness): values spanning [-100, -50] with default
`pad = 0.05` give the inverted range `(0, -47.5)`. -/
theorem c10_inverted_range_witness :
    (ytrim_from [[some (-100), some (-50)]] (1/20) false true (3/10)).1
      = some 0
    ∧ (ytrim_from [[some (-100), some (-50)]] (1/20) false true (3/10)).2
      = some (-95/2)
    ∧ (-95/2 : ℚ) < 0 :=
  c10_inverted_range [[some (-100), some (-50)]] (1/20) (3/10) (-95/2)
    (by norm_num)
    (by norm_num [stackVals, List.filterMap])
    (by norm_num [ytrim_ymax, spanOf, dminOf, dmaxOf, stackVals, listMin,
      listMax, pymax, nsub, nadd, nmul, qeps, List.filterMap, List.foldl,
      min_def, max_def])
    (by norm_num)

lemma optMapAll_some_of_forall {α β : Type} (f : α → Option β) (as : List α)
    (h : ∀ a ∈ as, (f a).isSome) :
    ∃ l, optMapAll f as = some l ∧ l.length = as.length ∧
      ∀ b ∈ l, ∃ a ∈ as, f a = some b := by
  induction as with
  | nil => exact ⟨[], rfl, rfl, by simp⟩
  | cons a as ih =>
    obtain ⟨b, hb⟩ := Option.isSome_iff_exists.mp (h a (List.mem_cons_self a as))
    obtain ⟨l, hl, hlen, hmem⟩ := ih (fun x hx => h x (List.mem_cons_of_mem a hx))
    refine ⟨b :: l, by simp [optMapAll, hb, hl], by simp [hlen], ?_⟩
    intro b' hb'
    rcases List.mem_cons.mp hb' with h1 | h1
    · exact ⟨a, List.mem_cons_self a as, h1 ▸ hb⟩
    · obtain ⟨a', ha', hfa'⟩ := hmem b' h1
      exact ⟨a', List.mem_cons_of_mem a ha', hfa'⟩

lemma length_melt (tcols : List String) (rows : List WideRow) :
    (melt tcols rows).length = tcols.length * rows.length := by
  induction tcols with
  | nil => simp [melt]
  | cons c cs ih =>
    simp only [melt, List.flatMap_cons, List.length_append, List.length_map,
      List.length_cons] at ih ⊢
    rw [ih]
    ring

lemma mem_melt_iff {tcols : List String} {rows : List WideRow}
    {m : List Cell × String × Cell} :
    m ∈ melt tcols rows
      ↔ ∃ c ∈ tcols, ∃ r ∈ rows, (r.ids, c, cellAt r c) = m := by
  simp [melt]

lemma parsedRows_shape (tcols : List String) (rows : List WideRow)
    (hp : ∀ c ∈ tcols, (parseQuarterLabel c).isSome) :
    ∃ l, parsedRows tcols rows = some l
      ∧ l.length = tcols.length * rows.length
      ∧ ∀ lr ∈ l, ∃ r ∈ rows, lr.ids = r.ids := by
  have hall : ∀ m ∈ melt tcols rows,
      ((tsOfLabel m.2.1).map
        (fun t => (⟨m.1, t, to_numeric m.2.2⟩ : LongRow))).isSome := by
    intro m hm
    obtain ⟨c, hc, r, hr, hm'⟩ := mem_melt_iff.mp hm
    obtain ⟨p, hparse⟩ := Option.isSome_iff_exists.mp (hp c hc)
    have hco : m.2.1 = c := by rw [← hm']
    rw [hco]
    simp [tsOfLabel, hparse]
  obtain ⟨l, hl, hlen, hmem⟩ :=
    optMapAll_some_of_forall _ (melt tcols rows) hall
  refine ⟨l, hl, by rw [hlen, length_melt], ?_⟩
  intro lr hlr
  obtain ⟨m, hm, hfm⟩ := hmem lr hlr
  obtain ⟨c, hc, r, hr, hm'⟩ := mem_melt_iff.mp hm
  have hids : m.1 = r.ids := by rw [← hm']
  cases ht : tsOfLabel m.2.1 with
  | none => rw [ht] at hfm; simp at hfm
  | some t =>
    rw [ht] at hfm
    simp only [Option.map_some', Option.some.injEq] at hfm
    rw [← hfm, hids]
    exact ⟨r, hr, rfl⟩

/-- Claim C6: the reshape turns a parsed quarter label into the timestamp at
the end of that calendar quarter; in particular "2015Q3" becomes the last
nanosecond of September 30, 2015. -/
theorem c6_quarter_end :
    tsOfLabel "2015Q3" = some ⟨2015, 9, 30, 86399999999999⟩
    ∧ ∀ (s : String) (y q : ℕ), parseQuarterLabel s = some (y, q) →
        tsOfLabel s = some (quarterEndTs y q) := by
  refine ⟨by decide, ?_⟩
  intro s y q h
  simp [tsOfLabel, h]

/-- Claim C6 (witness): the quarter-end composition applied to "2015Q3". -/
theorem c6_quarter_end_witness :
    tsOfLabel "2015Q3" = some (quarterEndTs 2015 3) :=
  c6_quarter_end.2 "2015Q3" 2015 3 (by decide)

/-- Claim C7: for a wide table with M rows, un-pivoting N parseable quarter
columns produces exactly N × M long rows before the year filter, each
carrying the identifier values of one input row unchanged. -/
theorem c7_melt_shape (tcols : List String) (rows : List WideRow)
    (hp : ∀ c ∈ tcols, (parseQuarterLabel c).isSome) :
    ∃ l, parsedRows tcols rows = some l
      ∧ l.length = tcols.length * rows.length
      ∧ ∀ lr ∈ l, ∃ r ∈ rows, lr.ids = r.ids :=
  parsedRows_shape tcols rows hp

/-- Claim C7 (witness): two quarter columns and one row give 2 × 1 rows. -/
theorem c7_melt_shape_witness :
    ∃ l, parsedRows ["2015Q3", "2016Q1"]
        [⟨[Cell.str "AUS"], [("2015Q3", Cell.num 7), ("2016Q1", Cell.null)]⟩]
        = some l
      ∧ l.length = ["2015Q3", "2016Q1"].length
          * [(⟨[Cell.str "AUS"],
              [("2015Q3", Cell.num 7), ("2016Q1", Cell.null)]⟩ : WideRow)].length
      ∧ ∀ lr ∈ l, ∃ r ∈ [(⟨[Cell.str "AUS"],
            [("2015Q3", Cell.num 7), ("2016Q1", Cell.null)]⟩ : WideRow)],
          lr.ids = r.ids :=
  c7_melt_shape ["2015Q3", "2016Q1"]
    [⟨[Cell.str "AUS"], [("2015Q3", Cell.num 7), ("2016Q1", Cell.null)]⟩]
    (by decide)

/-- Claim C8: every row of the filtered reshape output has a quarter year in
[2010, 2024], and a column labeled "2009Q4" is never recognized as a quarter
column by `time_cols`, so it contributes no row to the output. -/
theorem c8_year_filter :
    (∀ (tcols : List String) (rows : List WideRow) (l : List LongRow),
        to_long tcols rows = some l →
        ∀ lr ∈ l, 2010 ≤ lr.quarter.year ∧ lr.quarter.year ≤ 2024)
    ∧ ∀ cols : List String, "2009Q4" ∉ time_cols cols := by
  constructor
  · intro tcols rows l hl lr hlr
    cases hp : parsedRows tcols rows with
    | none => rw [to_long, hp] at hl; simp at hl
    | some l0 =>
      rw [to_long, hp] at hl
      simp only [Option.map_some', Option.some.injEq] at hl
      rw [← hl] at hlr
      have := (List.mem_filter.mp hlr).2
      simp only [Bool.and_eq_true, decide_eq_true_eq] at this
      exact this
  · intro cols hmem
    have hpred := (List.mem_filter.mp hmem).2
    have hfalse : ((List.range' 2010 15).any
        (fun y => strBegins "2009Q4" (toString y))) = false := by decide
    rw [hfalse] at hpred
    exact Bool.false_ne_true hpred

/-- Claim C8 (witness): the year bounds on a concrete reshape output, and
"2009Q4" rejected from a concrete column list. -/
theorem c8_year_filter_witness :
    (∀ lr ∈ ([⟨[Cell.str "AUS"], ⟨2015, 9, 30, 86399999999999⟩, none⟩]
        : List LongRow), 2010 ≤ lr.quarter.year ∧ lr.quarter.year ≤ 2024)
    ∧ "2009Q4" ∉ time_cols ["Country", "2009Q4", "2015Q3"] :=
  ⟨c8_year_filter.1 ["2015Q3"] [⟨[Cell.str "AUS"], [("2015Q3", Cell.str "N/A")]⟩]
      [⟨[Cell.str "AUS"], ⟨2015, 9, 30, 86399999999999⟩, none⟩] (by decide),
   c8_year_filter.2 ["Country", "2009Q4", "2015Q3"]⟩

/-- Claim C9: a cell value that does not parse as a number — such as the
string "N/A" — is coerced to the missing marker (`none`), not to zero, and
value cells never make the reshape fail: with parseable quarter labels,
`to_long` returns a result whatever the cells contain. -/
theorem c9_numeric_coercion :
    to_numeric (Cell.str "N/A") = none
    ∧ to_numeric (Cell.str "N/A") ≠ some 0
    ∧ ∀ (tcols : List String) (rows : List WideRow),
        (∀ c ∈ tcols, (parseQuarterLabel c).isSome) →
        (to_long tcols rows).isSome := by
  refine ⟨by decide, by decide, ?_⟩
  intro tcols rows hp
  obtain ⟨l, hl, -, -⟩ := parsedRows_shape tcols rows hp
  rw [to_long, hl]
  simp

/-- Claim C9 (witness): "N/A" coerces to missing and a reshape whose only
cell is "N/A" still succeeds. -/
theorem c9_numeric_coercion_witness :
    to_numeric (Cell.str "N/A") = none
    ∧ to_numeric (Cell.str "N/A") ≠ some 0
    ∧ (to_long ["2015Q3"]
        [⟨[Cell.str "AUS"], [("2015Q3", Cell.str "N/A")]⟩]).isSome :=
  ⟨c9_numeric_coercion.1, c9_numeric_coercion.2.1,
   c9_numeric_coercion.2.2 ["2015Q3"]
     [⟨[Cell.str "AUS"], [("2015Q3", Cell.str "N/A")]⟩] (by decide)⟩

end Greenhouse
